import Mathlib

/-!
Verification of the file discovery, change monitoring and adaptive
resource-management subsystem of the universal-crossref scanner.

The Lean definitions below are a shallow embedding of the Python source:

* `classify_file` embeds `FileClassifier.classify_file`
  (src/src/scanner/file_scanner.py), including the exact
  `FILE_TYPE_MAPPING` / `SPECIAL_NAMES` dictionaries and the
  `pathlib` name/stem/suffix semantics it relies on.
* `should_include_file`, `scanFiles`, `scanDir`, `emitGo` embed
  `AsyncFileScanner._should_include_file`, `_discover_files` and the
  batching loop of `scan_project`.
* `save_decision` / `toDictContentHash` embed `FileInfo.to_dict` and the
  per-file branch of `AsyncFileScanner._save_file_batch`.
* `addChange`, `get_ready_changes`, `flush_all` embed `ChangeBuffer`
  (src/src/scanner/file_monitor.py).
* `moved_change_event`, `moved_pair`, `process_moved_pair` embed the
  moved-file pipeline `FileMonitor._handle_event` / `_process_changes` /
  `_process_moved_files`.
* `check_limits`, `trigger_emergency`, `run_samples` embed
  `ResourceLimiter` (src/src/scanner/performance.py).
* `scale_down`, `scale_up` embed `ConcurrencyManager`, and
  `acquire_worker` embeds `ScannerPerformanceManager.acquire_worker`.

Machine reals (floats for sizes, times, percentages) are modelled as
`Int`; wall-clock instants are `Int` timestamps; `await` suspension is
irrelevant to the claims proved here because every embedded code section
is a single synchronous block between suspension points.
-/

/-! ## String helpers mirroring Python `str` / `pathlib.PurePath` -/

/-- Python `str.lower()` (all table keys and inputs of interest are ASCII). -/
def strLower (s : String) : String := String.mk (s.toList.map Char.toLower)

/-- Python `str.upper()`. -/
def strUpper (s : String) : String := String.mk (s.toList.map Char.toUpper)

/-- Does the character list `l` start with `pat`? -/
def startsWithL : List Char → List Char → Bool
  | _, [] => true
  | [], _ :: _ => false
  | a :: as, b :: bs => a == b && startsWithL as bs

/-- Does the character list `l` contain `pat` as a contiguous run?
Mirrors Python `pat in s`. -/
def containsL : List Char → List Char → Bool
  | [], pat => pat.isEmpty
  | a :: as, pat => startsWithL (a :: as) pat || containsL as pat

/-- Python `pat in s` on strings. -/
def containsStr (s pat : String) : Bool := containsL s.toList pat.toList

/-- Index of the last dot in a character list, if any
(Python `name.rfind(chr(46))`). -/
def lastIndexOfDot : List Char → Option Nat
  | [] => none
  | c :: cs =>
    match lastIndexOfDot cs with
    | some i => some (i + 1)
    | none => if c == '.' then some 0 else none

/-- `pathlib.PurePath.suffix` of a basename: the final dotted component,
present only when the last dot is neither the first nor the last
character. -/
def pySuffix (name : String) : String :=
  let l := name.toList
  match lastIndexOfDot l with
  | some i => if 0 < i ∧ i < l.length - 1 then String.mk (l.drop i) else ""
  | none => ""

/-- `pathlib.PurePath.stem` of a basename: the name with `pySuffix`
removed. -/
def pyStem (name : String) : String :=
  let l := name.toList
  match lastIndexOfDot l with
  | some i => if 0 < i ∧ i < l.length - 1 then String.mk (l.take i) else name
  | none => name

/-- Lookup in a Python `dict` built from a literal key/value list: a later
duplicate key overrides an earlier one, so the lookup finds the last
binding. -/
def dictFind (l : List (String × α)) (k : String) : Option α :=
  (l.reverse.find? (fun x => x.1 == k)).map (fun x => x.2)

/-! ## FileClassifier (src/src/scanner/file_scanner.py) -/

/-- `FileClassifier.FILE_TYPE_MAPPING`, keys in source order including the
duplicated keys whose later binding wins in a Python dict literal. -/
def FILE_TYPE_MAPPING : List (String × String × String) := [
  (".py", ("code", "python")),
  (".js", ("code", "javascript")),
  (".ts", ("code", "typescript")),
  (".jsx", ("code", "javascript")),
  (".tsx", ("code", "typescript")),
  (".java", ("code", "java")),
  (".cpp", ("code", "cpp")),
  (".c", ("code", "c")),
  (".h", ("code", "c")),
  (".cs", ("code", "csharp")),
  (".php", ("code", "php")),
  (".rb", ("code", "ruby")),
  (".go", ("code", "go")),
  (".rs", ("code", "rust")),
  (".swift", ("code", "swift")),
  (".kt", ("code", "kotlin")),
  (".scala", ("code", "scala")),
  (".clj", ("code", "clojure")),
  (".hs", ("code", "haskell")),
  (".ml", ("code", "ocaml")),
  (".fs", ("code", "fsharp")),
  (".elm", ("code", "elm")),
  (".dart", ("code", "dart")),
  (".lua", ("code", "lua")),
  (".r", ("code", "r")),
  (".m", ("code", "matlab")),
  (".pl", ("code", "perl")),
  (".sh", ("code", "shell")),
  (".bash", ("code", "shell")),
  (".zsh", ("code", "shell")),
  (".fish", ("code", "shell")),
  (".ps1", ("code", "powershell")),
  (".bat", ("code", "batch")),
  (".cmd", ("code", "batch")),
  (".css", ("style", "css")),
  (".scss", ("style", "scss")),
  (".sass", ("style", "sass")),
  (".less", ("style", "less")),
  (".styl", ("style", "stylus")),
  (".html", ("markup", "html")),
  (".htm", ("markup", "html")),
  (".xml", ("markup", "xml")),
  (".svg", ("markup", "svg")),
  (".jsx", ("markup", "jsx")),
  (".tsx", ("markup", "tsx")),
  (".vue", ("markup", "vue")),
  (".svelte", ("markup", "svelte")),
  (".handlebars", ("template", "handlebars")),
  (".hbs", ("template", "handlebars")),
  (".mustache", ("template", "mustache")),
  (".twig", ("template", "twig")),
  (".jinja", ("template", "jinja")),
  (".j2", ("template", "jinja")),
  (".json", ("config", "json")),
  (".yaml", ("config", "yaml")),
  (".yml", ("config", "yaml")),
  (".toml", ("config", "toml")),
  (".ini", ("config", "ini")),
  (".cfg", ("config", "ini")),
  (".conf", ("config", "conf")),
  (".env", ("config", "env")),
  (".properties", ("config", "properties")),
  (".plist", ("config", "plist")),
  (".md", ("docs", "markdown")),
  (".rst", ("docs", "restructuredtext")),
  (".txt", ("docs", "text")),
  (".adoc", ("docs", "asciidoc")),
  (".org", ("docs", "org")),
  (".tex", ("docs", "latex")),
  (".sql", ("database", "sql")),
  (".graphql", ("database", "graphql")),
  (".gql", ("database", "graphql")),
  (".test.js", ("test", "javascript")),
  (".test.ts", ("test", "typescript")),
  (".spec.js", ("test", "javascript")),
  (".spec.ts", ("test", "typescript")),
  (".test.py", ("test", "python")),
  (".spec.py", ("test", "python")),
  (".dockerfile", ("build", "dockerfile")),
  (".dockerignore", ("build", "docker")),
  ("Makefile", ("build", "makefile")),
  ("CMakeLists.txt", ("build", "cmake")),
  (".gradle", ("build", "gradle")),
  ("pom.xml", ("build", "maven")),
  ("build.xml", ("build", "ant")),
  ("package.json", ("build", "npm")),
  ("composer.json", ("build", "composer")),
  ("Cargo.toml", ("build", "cargo")),
  ("setup.py", ("build", "python")),
  ("requirements.txt", ("build", "python")),
  ("Pipfile", ("build", "python")),
  ("pyproject.toml", ("build", "python"))]

/-- `FileClassifier.SPECIAL_NAMES`. -/
def SPECIAL_NAMES : List (String × String × String) := [
  ("README", ("docs", "readme")),
  ("LICENSE", ("docs", "license")),
  ("CHANGELOG", ("docs", "changelog")),
  ("CONTRIBUTING", ("docs", "contributing")),
  ("CODE_OF_CONDUCT", ("docs", "code_of_conduct")),
  ("SECURITY", ("docs", "security")),
  (".gitignore", ("config", "gitignore")),
  (".gitattributes", ("config", "git")),
  (".editorconfig", ("config", "editorconfig")),
  (".eslintrc", ("config", "eslint")),
  (".prettierrc", ("config", "prettier")),
  (".babelrc", ("config", "babel")),
  ("tsconfig.json", ("config", "typescript")),
  ("webpack.config.js", ("config", "webpack")),
  ("rollup.config.js", ("config", "rollup")),
  ("vite.config.js", ("config", "vite")),
  ("next.config.js", ("config", "nextjs")),
  ("nuxt.config.js", ("config", "nuxtjs")),
  ("gatsby-config.js", ("config", "gatsby"))]

/-- The four substrings used by the classifier to spot test files. -/
def testNamePattern (low : String) : Bool :=
  containsStr low (".test.") || containsStr low (".spec.") ||
    containsStr low ("_test.") || containsStr low ("_spec.")

/-- The tail of the classifier after the special-name and test checks:
extension lookup followed by the default classification. -/
def classifyByExt (suff : String) : String × Option String :=
  match dictFind FILE_TYPE_MAPPING suff with
  | some (c, l) => (c, some l)
  | none =>
    if suff ≠ "" then ("unknown", some (String.mk (suff.toList.drop 1)))
    else ("unknown", none)

/-- `FileClassifier.classify_file`, as a function of the file basename
(only `name`, `stem` and `suffix` of the path are consulted). -/
def classify_file (name : String) : String × Option String :=
  let stem := pyStem name
  let suff := strLower (pySuffix name)
  match dictFind SPECIAL_NAMES name with
  | some (c, l) => (c, some l)
  | none =>
    match dictFind SPECIAL_NAMES (strUpper stem) with
    | some (c, l) => (c, some l)
    | none =>
      if testNamePattern (strLower name) then
        match dictFind FILE_TYPE_MAPPING suff with
        | some (_, l) => ("test", some l)
        | none => classifyByExt suff
      else classifyByExt suff

example : classify_file ("main.py") = ("code", some ("python")) := by decide
example : classify_file ("readme.md") = ("docs", some ("readme")) := by decide
example : classify_file ("a.test.ts") = ("test", some ("typescript")) := by decide
example : classify_file ("photo.png") = ("unknown", some ("png")) := by decide
example : classify_file ("Makefile") = ("unknown", none) := by decide
example : classify_file (".gitignore") = ("config", some ("gitignore")) := by decide
example : classify_file (".gitignore.bak") = ("unknown", some ("bak")) := by decide

/-! ## Claim C6: resolution order of the classifier -/

/-- Classifier written from the words of claim C6: resolution order with
first match winning, where step (b) is a genuinely case-insensitive
comparison of the filename stem against every special name, and step (c)
always yields category test for a test-convention name, taking the
language from the base extension via the lookup table (falling back to
the raw extension when the table has no entry). -/
def claimC6_classify (name : String) : String × Option String :=
  let stem := pyStem name
  let suff := strLower (pySuffix name)
  match dictFind SPECIAL_NAMES name with
  | some (c, l) => (c, some l)
  | none =>
    match SPECIAL_NAMES.reverse.find? (fun x => strLower x.1 == strLower stem) with
    | some (_, c, l) => (c, some l)
    | none =>
      if testNamePattern (strLower name) then
        match dictFind FILE_TYPE_MAPPING suff with
        | some (_, l) => ("test", some l)
        | none => ("test", some (String.mk (suff.toList.drop 1)))
      else classifyByExt suff

/-- One rule of the amended resolution order; a rule either resolves the
name or passes. -/
def classifierRule : Nat → String → Option (String × Option String)
  | 0, name =>
    (dictFind SPECIAL_NAMES name).map (fun r => (r.1, some r.2))
  | 1, name =>
    (dictFind SPECIAL_NAMES (strUpper (pyStem name))).map (fun r => (r.1, some r.2))
  | 2, name =>
    if testNamePattern (strLower name) then
      (dictFind FILE_TYPE_MAPPING (strLower (pySuffix name))).map
        (fun r => ("test", some r.2))
    else none
  | 3, name =>
    (dictFind FILE_TYPE_MAPPING (strLower (pySuffix name))).map
      (fun r => (r.1, some r.2))
  | _, _ => none

/-- Try an ordered list of rules, first match wins. -/
def firstRule (name : String) : List Nat → Option (String × Option String)
  | [] => none
  | r :: rs =>
    match classifierRule r name with
    | some v => some v
    | none => firstRule name rs

/-- Classifier written from the amended claim: an ordered rule list with
first match winning — (a) exact special filename; (b) the uppercased
stem equal to a special name, which is a case-insensitive match against
the all-uppercase special names only; (c) test-convention name whose
base extension is in the extension table; (d) the extension table;
(e) fallback to unknown with the raw extension, or no language at all. -/
def amended_classify (name : String) : String × Option String :=
  match firstRule name [0, 1, 2, 3] with
  | some v => v
  | none =>
    let suff := strLower (pySuffix name)
    if suff ≠ "" then ("unknown", some (String.mk (suff.toList.drop 1)))
    else ("unknown", none)

/-- The basename used to refute claim C6. -/
def gitignoreBak : String := ".gitignore.bak"

/-- A test-convention basename whose base extension is unknown to the
extension table. -/
def fooTestXyz : String := "foo.test.xyz"

/-- Claim C6 is false on the code: the stem of .gitignore.bak is exactly
the special name .gitignore (so a case-insensitive stem match must fire
and give config/gitignore), yet the code uppercases the stem before the
lookup and never matches the lowercase special names, classifying the
file as unknown/bak.  Likewise a test-convention name with an unknown
base extension is classified unknown, not test. -/
theorem C6_counterexample :
    classify_file gitignoreBak = ("unknown", some ("bak")) ∧
    claimC6_classify gitignoreBak = ("config", some ("gitignore")) ∧
    classify_file gitignoreBak ≠ claimC6_classify gitignoreBak ∧
    (classify_file fooTestXyz).1 = "unknown" ∧
    (claimC6_classify fooTestXyz).1 = "test" := by
  refine ⟨by decide, by decide, by decide, by decide, by decide⟩

/-- Amended claim C6: classification resolves by the ordered rule list of
amended_classify — (a) exact special filename; (b) uppercased stem equal
to a special name (case-insensitive only for the all-uppercase special
names); (c) test-file naming convention, category test, only when the
base extension is in the extension table, otherwise the rule passes;
(d) extension table; (e) category unknown with the raw extension as
language, or none when there is no extension. -/
theorem C6_amended_resolution (name : String) :
    classify_file name = amended_classify name := by
  cases h0 : dictFind SPECIAL_NAMES name with
  | some r =>
    simp [classify_file, amended_classify, firstRule, classifierRule, h0]
  | none =>
    cases h1 : dictFind SPECIAL_NAMES (strUpper (pyStem name)) with
    | some r =>
      simp [classify_file, amended_classify, firstRule, classifierRule, h0, h1]
    | none =>
      cases h2 : testNamePattern (strLower name) with
      | true =>
        cases h3 : dictFind FILE_TYPE_MAPPING (strLower (pySuffix name)) with
        | some r =>
          simp [classify_file, amended_classify, firstRule, classifierRule,
            h0, h1, h2, h3]
        | none =>
          simp [classify_file, amended_classify, firstRule, classifierRule,
            classifyByExt, h0, h1, h2, h3]
      | false =>
        cases h3 : dictFind FILE_TYPE_MAPPING (strLower (pySuffix name)) with
        | some r =>
          simp [classify_file, amended_classify, firstRule, classifierRule,
            classifyByExt, h0, h1, h2, h3]
        | none =>
          simp [classify_file, amended_classify, firstRule, classifierRule,
            classifyByExt, h0, h1, h2, h3]

/-! ## AsyncFileScanner discovery (src/src/scanner/file_scanner.py)

A file entry carries the outcome of the OS interactions
`_should_include_file` performs: `stat` either returns a size or raises
`OSError` (modelled as `none`), and the two `PathSpec.match_file` calls
are propositional inputs recorded per entry. -/

structure FileEntry where
  name : String
  stat : Option Nat
  excludeMatch : Bool
  includeMatch : Bool
deriving DecidableEq, Repr

structure ScanConfig where
  maxFileSize : Nat
  hasIncludePatterns : Bool
  maxDepth : Nat
  emergencyLimit : Nat
deriving DecidableEq, Repr

/-- The counters of `ScannerStats` touched by discovery (`start_time`,
`current_depth` and the error strings are transient bookkeeping). -/
structure ScannerStats where
  files_discovered : Nat := 0
  files_processed : Nat := 0
  files_skipped : Nat := 0
  files_errored : Nat := 0
  bytes_processed : Nat := 0
  directories_scanned : Nat := 0
  max_depth : Nat := 0
deriving DecidableEq, Repr

/-- `AsyncFileScanner._should_include_file`: the size ceiling (with an
`OSError` from `stat` caught and turned into exclusion), then the
exclude patterns, then the include patterns when any are configured. -/
def should_include_file (cfg : ScanConfig) (f : FileEntry) : Bool :=
  match f.stat with
  | none => false
  | some size =>
    if cfg.maxFileSize < size then false
    else if f.excludeMatch then false
    else if cfg.hasIncludePatterns then f.includeMatch
    else true

/-- A directory tree: exclusion/permission outcomes for the directory
itself, its file entries in listing order, then its subdirectory entries
each tagged with its `is_symlink` status. -/
inductive FsTree where
  | dir (excludeMatch : Bool) (permissionDenied : Bool)
      (files : List FileEntry) (subs : List (Bool × FsTree))
deriving Repr

/-- The files-first loop of `_scan_directory`: count each entry as
discovered (and yield it) or skipped.  `_running` is `True` throughout a
claim-relevant scan, so the early-return on `stop()` is not modelled. -/
def scanFiles (cfg : ScanConfig) : List FileEntry → ScannerStats →
    ScannerStats × List FileEntry
  | [], st => (st, [])
  | f :: fs, st =>
    if should_include_file cfg f then
      let r := scanFiles cfg fs
        { st with files_discovered := st.files_discovered + 1 }
      (r.1, f :: r.2)
    else
      scanFiles cfg fs { st with files_skipped := st.files_skipped + 1 }

/-- The subdirectory loop of `_scan_directory`: recurse (via the supplied
scan function) into each non-symlink subdirectory, threading stats and
concatenating yields. -/
def runForest (f : FsTree → ScannerStats → ScannerStats × List FileEntry) :
    List (Bool × FsTree) → ScannerStats → ScannerStats × List FileEntry
  | [], st => (st, [])
  | (sym, t) :: rest, st =>
    if sym then runForest f rest st
    else
      let r := f t st
      let r2 := runForest f rest r.1
      (r2.1, r.2 ++ r2.2)

/-- `_scan_directory`, with a structural fuel argument.  Recursion depth
is already bounded by the `depth > max_directory_depth` guard, so any
fuel of at least `cfg.maxDepth + 2 - depth` makes the fuel-exhausted
branch unreachable (`scanDir_fuel_free` below); the top-level entry
point `scan_discover` supplies such a fuel. -/
def scanDir (cfg : ScanConfig) : Nat → FsTree → Nat → ScannerStats →
    ScannerStats × List FileEntry
  | 0, _, _, st => (st, [])
  | fuel + 1, FsTree.dir excl perm files subs, depth, st =>
    if cfg.maxDepth < depth then (st, [])
    else if cfg.emergencyLimit < st.files_discovered then (st, [])
    else
      let st1 := { st with max_depth := max st.max_depth depth }
      if excl then (st1, [])
      else
        let st2 := { st1 with directories_scanned := st1.directories_scanned + 1 }
        if perm then (st2, [])
        else
          let r := scanFiles cfg files st2
          let r2 := runForest (fun t s => scanDir cfg fuel t (depth + 1) s) subs r.1
          (r2.1, r.2 ++ r2.2)

/-- `_discover_files`: scan from the root at depth 0 with ample fuel. -/
def scan_discover (cfg : ScanConfig) (root : FsTree) :
    ScannerStats × List FileEntry :=
  scanDir cfg (cfg.maxDepth + 2) root 0 {}

/-- The batching loop of `scan_project`: accumulate analyzed records,
emit a full batch whenever the accumulator reaches `scan_batch_size`,
and flush the trailing partial batch at the end. -/
def emitGo (n : Nat) : List FileEntry → List (List FileEntry) →
    List FileEntry → List (List FileEntry)
  | [], outs, cur => if cur.isEmpty then outs else outs ++ [cur]
  | f :: fs, outs, cur =>
    let cur' := cur ++ [f]
    if n ≤ cur'.length then emitGo n fs (outs ++ [cur']) []
    else emitGo n fs outs cur'

/-- All batches emitted for the analyzed record list `l`. -/
def emitBatches (n : Nat) (l : List FileEntry) : List (List FileEntry) :=
  emitGo n l [] []

/-! ### Discovery lemmas -/

/-- The files loop yields exactly the included entries, counts them as
discovered, counts the rest as skipped, and touches no other counter. -/
theorem scanFiles_spec (cfg : ScanConfig) (files : List FileEntry)
    (st : ScannerStats) :
    scanFiles cfg files st =
      ({ st with
          files_discovered :=
            st.files_discovered + files.countP (should_include_file cfg),
          files_skipped :=
            st.files_skipped +
              files.countP (fun f => !(should_include_file cfg f)) },
        files.filter (should_include_file cfg)) := by
  induction files generalizing st with
  | nil => simp [scanFiles]
  | cons f fs ih =>
    by_cases h : should_include_file cfg f
    · simp only [scanFiles, h, if_true, ih, List.countP_cons, List.filter_cons]
      cases st
      simp_all
      omega
    · simp only [scanFiles, h, if_false, Bool.false_eq_true, ih,
        List.countP_cons, List.filter_cons]
      cases st
      simp_all
      omega

/-- The subdirectory loop preserves any per-directory stats relation that
the supplied scan function guarantees: discovery count grows exactly by
the number of yielded files and the error counter is untouched. -/
theorem runForest_stats
    (f : FsTree → ScannerStats → ScannerStats × List FileEntry)
    (hf : ∀ t st, (f t st).1.files_discovered =
            st.files_discovered + (f t st).2.length ∧
          (f t st).1.files_errored = st.files_errored)
    (l : List (Bool × FsTree)) (st : ScannerStats) :
    (runForest f l st).1.files_discovered =
        st.files_discovered + (runForest f l st).2.length ∧
    (runForest f l st).1.files_errored = st.files_errored := by
  induction l generalizing st with
  | nil => simp [runForest]
  | cons x rest ih =>
    obtain ⟨sym, t⟩ := x
    cases sym with
    | true => simpa [runForest] using ih st
    | false =>
      have h1 := hf t st
      have h2 := ih (f t st).1
      simp only [runForest, Bool.false_eq_true, if_false]
      constructor
      · simp only [List.length_append]
        omega
      · omega

/-- Directory scanning counts as discovered exactly the files it yields,
and never touches the error counter. -/
theorem scanDir_stats (cfg : ScanConfig) (fuel : Nat) (t : FsTree)
    (depth : Nat) (st : ScannerStats) :
    (scanDir cfg fuel t depth st).1.files_discovered =
        st.files_discovered + (scanDir cfg fuel t depth st).2.length ∧
    (scanDir cfg fuel t depth st).1.files_errored = st.files_errored := by
  induction fuel generalizing t depth st with
  | zero => simp [scanDir]
  | succ n ih =>
    obtain ⟨excl, perm, files, subs⟩ := t
    simp only [scanDir]
    split
    · simp
    · split
      · simp
      · cases excl with
        | true => simp
        | false =>
          simp only [Bool.false_eq_true, if_false]
          cases perm with
          | true => simp
          | false =>
            simp only [Bool.false_eq_true, if_false, scanFiles_spec]
            have hrf := runForest_stats
              (fun t s => scanDir cfg n t (depth + 1) s)
              (fun t s => ih t (depth + 1) s) subs
            set st2 : ScannerStats :=
              { st with
                  max_depth := max st.max_depth depth,
                  directories_scanned := st.directories_scanned + 1,
                  files_discovered := st.files_discovered +
                    files.countP (should_include_file cfg),
                  files_skipped := st.files_skipped +
                    files.countP (fun f => !(should_include_file cfg f)) }
              with hst2
            have h2 := hrf st2
            simp only [List.length_append]
            constructor
            · have : st2.files_discovered = st.files_discovered +
                  (files.filter (should_include_file cfg)).length := by
                simp [hst2, List.countP_eq_length_filter]
              omega
            · have : st2.files_errored = st.files_errored := by simp [hst2]
              omega

/-- Once the discovered-file count exceeds the emergency limit, a
directory scan that has not yet begun returns at its entry guard with
nothing discovered. -/
theorem scanDir_halted (cfg : ScanConfig) (fuel : Nat) (t : FsTree)
    (depth : Nat) (st : ScannerStats)
    (h : cfg.emergencyLimit < st.files_discovered) :
    scanDir cfg fuel t depth st = (st, []) := by
  cases fuel with
  | zero => rfl
  | succ n =>
    obtain ⟨excl, perm, files, subs⟩ := t
    simp [scanDir, h]

/-- The batching loop loses nothing: every accumulated record appears in
the emitted batches, in order, including the trailing partial batch. -/
theorem emitGo_join (n : Nat) (fs : List FileEntry)
    (outs : List (List FileEntry)) (cur : List FileEntry) :
    (emitGo n fs outs cur).flatten = outs.flatten ++ cur ++ fs := by
  induction fs generalizing outs cur with
  | nil =>
    by_cases h : cur.isEmpty
    · have : cur = [] := by simpa [List.isEmpty_iff] using h
      simp [emitGo, h, this]
    · simp [emitGo, h]
  | cons f fs ih =>
    simp only [emitGo]
    split
    · simp [ih]
    · simp [ih]

/-! ### Claims C5 and C10 -/

/-- An unremarkable included file for the concrete scenarios. -/
def plainFile (nm : String) : FileEntry :=
  { name := nm, stat := some 10, excludeMatch := false, includeMatch := false }

/-- A configuration whose emergency stop limit is 1. -/
def limitOneCfg : ScanConfig :=
  { maxFileSize := 1000, hasIncludePatterns := false, maxDepth := 20,
    emergencyLimit := 1 }

/-- A flat root directory with three included files. -/
def threeFileTree : FsTree :=
  FsTree.dir false false
    [plainFile ("a.py"), plainFile ("b.py"), plainFile ("c.py")] []

/-- Claim C5 is false on the code: with emergency_stop_file_count 1, the
count exceeds the limit at the second file of the root directory (2 > 1),
yet the third file is still discovered, because the guard is evaluated
only at directory entry — so files_discovered does not stop increasing
at the truncation point and ends at 3 > limit + 1. -/
theorem C5_counterexample :
    (scan_discover limitOneCfg threeFileTree).1.files_discovered = 3 ∧
    (scan_discover limitOneCfg threeFileTree).2 =
      [plainFile ("a.py"), plainFile ("b.py"), plainFile ("c.py")] ∧
    limitOneCfg.emergencyLimit = 1 ∧ ¬ (3 ≤ 1 + 1) := by
  refine ⟨by decide, by decide, by decide, by decide⟩

/-- Amended claim C5: once files_discovered exceeds
emergency_stop_file_count, every directory scan not yet begun stops at
its entry guard and discovers nothing (files still pending in a
directory whose listing already began are still discovered, so the count
may overshoot the limit by at most the remainder of those listings);
already-queued work still flushes — the emitted batches contain exactly
the analyzed records, trailing partial batch included; and the final
stats count every discovered file, overshoot included. -/
theorem C5_amended (cfg : ScanConfig) (fuel : Nat) (t : FsTree)
    (depth : Nat) (st : ScannerStats) (n : Nat) (l : List FileEntry)
    (h : cfg.emergencyLimit < st.files_discovered) :
    scanDir cfg fuel t depth st = (st, []) ∧
    (scan_discover cfg t).1.files_discovered =
      (scan_discover cfg t).2.length ∧
    (emitBatches n l).flatten = l := by
  refine ⟨scanDir_halted cfg fuel t depth st h, ?_, ?_⟩
  · have := scanDir_stats cfg (cfg.maxDepth + 2) t 0 {}
    simpa [scan_discover] using this.1
  · simpa using emitGo_join n l [] []

/-- Concrete instantiation of the amended claim C5. -/
theorem C5_amended_witness :
    limitOneCfg.emergencyLimit < 5 ∧
    scanDir limitOneCfg 22 threeFileTree 0 { files_discovered := 5 } =
      ({ files_discovered := 5 }, []) ∧
    (emitBatches 2 [plainFile ("a.py"), plainFile ("b.py"),
        plainFile ("c.py")]).flatten =
      [plainFile ("a.py"), plainFile ("b.py"), plainFile ("c.py")] := by
  have h5 : limitOneCfg.emergencyLimit < (5 : Nat) := by decide
  have h := C5_amended limitOneCfg 22 threeFileTree 0 { files_discovered := 5 }
    2 [plainFile ("a.py"), plainFile ("b.py"), plainFile ("c.py")] h5
  exact ⟨h5, h.1, h.2.2⟩

/-- Claim C10: a candidate file whose stat raises during the include
check is excluded, lands in files_skipped and not files_errored, is
never yielded into any batch, and the scan of the remaining entries
proceeds exactly as it would from the incremented-skip state. -/
theorem C10_stat_error_skipped (cfg : ScanConfig) (f : FileEntry)
    (files : List FileEntry) (st : ScannerStats) (hf : f.stat = none) :
    should_include_file cfg f = false ∧
    f ∉ (scanFiles cfg files st).2 ∧
    (scanFiles cfg files st).1.files_errored = st.files_errored ∧
    (scanFiles cfg files st).1.files_skipped =
      st.files_skipped + files.countP (fun g => !(should_include_file cfg g)) ∧
    scanFiles cfg (f :: files) st =
      scanFiles cfg files { st with files_skipped := st.files_skipped + 1 } := by
  have hinc : should_include_file cfg f = false := by
    simp [should_include_file, hf]
  refine ⟨hinc, ?_, ?_, ?_, ?_⟩
  · intro hmem
    rw [scanFiles_spec] at hmem
    have := List.of_mem_filter hmem
    rw [hinc] at this
    cases this
  · rw [scanFiles_spec]
  · rw [scanFiles_spec]
  · simp [scanFiles, hinc]

/-- Concrete instantiation of claim C10: a file deleted between listing
and checking is skipped, the later file is still discovered. -/
theorem C10_witness :
    (({ name := "gone.py", stat := none, excludeMatch := false,
        includeMatch := false } : FileEntry).stat = none) ∧
    should_include_file limitOneCfg
      { name := "gone.py", stat := none, excludeMatch := false,
        includeMatch := false } = false ∧
    (scanFiles limitOneCfg
      [{ name := "gone.py", stat := none, excludeMatch := false,
         includeMatch := false }, plainFile ("a.py")] {}).1.files_errored = 0 ∧
    ({ name := "gone.py", stat := none, excludeMatch := false,
       includeMatch := false } : FileEntry) ∉
      (scanFiles limitOneCfg
        [{ name := "gone.py", stat := none, excludeMatch := false,
           includeMatch := false }, plainFile ("a.py")] {}).2 := by
  have h := C10_stat_error_skipped limitOneCfg
    { name := "gone.py", stat := none, excludeMatch := false,
      includeMatch := false }
    [{ name := "gone.py", stat := none, excludeMatch := false,
       includeMatch := false }, plainFile ("a.py")] {} (by decide)
  exact ⟨by decide, h.1, h.2.2.1, h.2.1⟩

/-! ## FileInfo.to_dict and _save_file_batch (claim C3) -/

/-- The categories for which `_analyze_file` computes a content hash and
sniffs the encoding. -/
def TEXT_LIKE_TYPES : List String :=
  ["code", "config", "docs", "markup", "style", "template"]

/-- The content hash `_analyze_file` leaves on a fresh `FileInfo`:
the streamed SHA-256 digest for text-like categories (`none` when the
read itself failed), `None` for every other category. -/
def analysisContentHash (file_type : String) (hashed : Option String) :
    Option String :=
  if file_type ∈ TEXT_LIKE_TYPES then hashed else none

/-- The `content_hash` column value produced by `FileInfo.to_dict`:
Python `self.content_hash or ""` maps both `None` and the empty string
to the empty string. -/
def toDictContentHash (content_hash : Option String) : String :=
  match content_hash with
  | some h => if h = "" then "" else h
  | none => ""

/-- The persistence action `_save_file_batch` takes for one file. -/
inductive DbAction where
  | create
  | update
  | noop
deriving DecidableEq, Repr

/-- The per-file branch of `_save_file_batch`: create when no record
exists under the relative path; otherwise update exactly when the stored
column (a string written by `to_dict`) differs from the fresh in-memory
`content_hash` (an optional string) — and in Python a string never
equals `None`, so a stored value compared against a fresh `None` always
counts as different. -/
def save_decision (existingHash : Option String) (freshHash : Option String) :
    DbAction :=
  match existingHash with
  | none => DbAction.create
  | some stored =>
    match freshHash with
    | some h => if stored = h then DbAction.noop else DbAction.update
    | none => DbAction.update

/-- Re-scan of an unchanged file: the stored column is what `to_dict`
wrote for the very same fresh hash on the previous pass. -/
def rescan_unchanged_decision (freshHash : Option String) : DbAction :=
  save_decision (some (toDictContentHash freshHash)) freshHash

/-- Claim C3 is right about the intent and wrong about the code: for a
non-text-like file (for example photo.png, classified unknown) the fresh
`FileInfo` carries no hash, while the persisted column holds the empty
string `to_dict` wrote for it, and Python's `!= ` between that string and
`None` is true — so re-scanning the unchanged file performs an update,
not the zero writes the claim states.  Text-like files with a real
digest are a noop as claimed. -/
theorem C3_rescan_nontext_updates :
    classify_file ("photo.png") = ("unknown", some ("png")) ∧
    analysisContentHash ("unknown") (some ("d41d8cd9")) = none ∧
    toDictContentHash none = "" ∧
    rescan_unchanged_decision none = DbAction.update ∧
    rescan_unchanged_decision (some ("d41d8cd9")) = DbAction.noop ∧
    DbAction.update ≠ DbAction.noop := by
  refine ⟨by decide, by decide, by decide, by decide, by decide, by decide⟩

/-! ## ChangeBuffer (src/src/scanner/file_monitor.py)

`_changes` and `_last_change_time` are two dicts updated in lockstep
under one lock (`add_change` writes both, `get_ready_changes` pops both,
`flush_all` clears both), so the pair is modelled as one insertion-ordered
association list from path to (latest event, last-touched time). -/

structure FileChangeEvent where
  event_type : String
  file_path : String
  is_directory : Bool
  old_path : Option String
  timestamp : Int
deriving DecidableEq, Repr

/-- The debounce window `ChangeBuffer(buffer_time=2.0)` used by
`FileMonitor`. -/
def buffer_time_default : Int := 2

abbrev Buffer := List (String × FileChangeEvent × Int)

/-- Dict lookup by path. -/
def lookupBuf (b : Buffer) (p : String) : Option (FileChangeEvent × Int) :=
  (b.find? (fun x => x.1 == p)).map (fun x => x.2)

/-- Dict assignment: replace in place (a Python dict keeps the insertion
position of an updated key) or append a fresh key. -/
def setBuf : Buffer → String → FileChangeEvent × Int → Buffer
  | [], p, v => [(p, v)]
  | (q, w) :: rest, p, v =>
    if q == p then (p, v) :: rest else (q, w) :: setBuf rest p v

/-- `ChangeBuffer.add_change`: later events override earlier ones for the
same file.  The `max_size` capacity check in the source only logs a
warning — it removes nothing, which is why the parameter is unused. -/
def add_change (maxSize : Nat) (b : Buffer) (e : FileChangeEvent)
    (now : Int) : Buffer :=
  setBuf b e.file_path (e, now)

/-- The readiness test of `get_ready_changes`:
`current_time - last_change_time >= buffer_time`. -/
def isReady (bt now : Int) (x : String × FileChangeEvent × Int) : Bool :=
  bt ≤ now - x.2.2

/-- `ChangeBuffer.get_ready_changes`: hand out the events whose entry is
at least the debounce window old and pop exactly those entries. -/
def get_ready_changes (bt now : Int) (b : Buffer) :
    List FileChangeEvent × Buffer :=
  ((b.filter (isReady bt now)).map (fun x => x.2.1),
    b.filter (fun x => !(isReady bt now x)))

/-- `ChangeBuffer.flush_all`: hand out everything and clear. -/
def flush_all (b : Buffer) : List FileChangeEvent × Buffer :=
  (b.map (fun x => x.2.1), [])

/-- The buffer invariant: paths are unique keys and every stored event is
keyed by its own file path. -/
def WFBuf (b : Buffer) : Prop :=
  (b.map Prod.fst).Nodup ∧ ∀ x ∈ b, x.2.1.file_path = x.1

instance : DecidablePred WFBuf := fun b =>
  inferInstanceAs (Decidable (_ ∧ _))

/-- A burst of `add_change` calls in arrival order. -/
def applyAdds (maxSize : Nat) (b : Buffer)
    (l : List (FileChangeEvent × Int)) : Buffer :=
  l.foldl (fun b x => add_change maxSize b x.1 x.2) b

/-- The most recent add targeting path `p` in a burst. -/
def lastAddFor (p : String) (l : List (FileChangeEvent × Int)) :
    Option (FileChangeEvent × Int) :=
  l.reverse.find? (fun x => x.1.file_path == p)

/-! ### Buffer lemmas -/

theorem lookup_setBuf_self (b : Buffer) (p : String)
    (v : FileChangeEvent × Int) : lookupBuf (setBuf b p v) p = some v := by
  induction b with
  | nil => simp [setBuf, lookupBuf]
  | cons x rest ih =>
    obtain ⟨q, w⟩ := x
    by_cases h : q = p
    · simp [setBuf, lookupBuf, h]
    · simp only [setBuf, beq_iff_eq, h, if_false]
      simpa [lookupBuf, List.find?_cons, h] using ih

theorem lookup_setBuf_ne (b : Buffer) (p r : String)
    (v : FileChangeEvent × Int) (h : r ≠ p) :
    lookupBuf (setBuf b p v) r = lookupBuf b r := by
  induction b with
  | nil =>
    have hpr : ¬ p = r := fun hc => h hc.symm
    simp [setBuf, lookupBuf, hpr]
  | cons x rest ih =>
    obtain ⟨q, w⟩ := x
    by_cases hq : q = p
    · subst hq
      have hpr : ¬ q = r := fun hc => h hc.symm
      simp [setBuf, lookupBuf, hpr]
    · simp only [setBuf, beq_iff_eq, hq, if_false]
      by_cases hr : q = r
      · simp [lookupBuf, hr]
      · simpa [lookupBuf, List.find?_cons, hr] using ih

theorem lookup_eq_none_of_not_key (b : Buffer) (p : String)
    (h : p ∉ b.map Prod.fst) : lookupBuf b p = none := by
  induction b with
  | nil => rfl
  | cons x rest ih =>
    obtain ⟨q, w⟩ := x
    simp only [List.map_cons, List.mem_cons, not_or] at h
    have hq : q ≠ p := fun hc => h.1 hc.symm
    simpa [lookupBuf, List.find?_cons, hq] using ih h.2

theorem keys_setBuf_of_absent (b : Buffer) (p : String)
    (v : FileChangeEvent × Int) (h : p ∉ b.map Prod.fst) :
    (setBuf b p v).map Prod.fst = b.map Prod.fst ++ [p] := by
  induction b with
  | nil => simp [setBuf]
  | cons x rest ih =>
    obtain ⟨q, w⟩ := x
    simp only [List.map_cons, List.mem_cons, not_or] at h
    have hq : q ≠ p := fun hc => h.1 hc.symm
    simp [setBuf, hq, ih h.2]

theorem keys_setBuf_of_present (b : Buffer) (p : String)
    (v : FileChangeEvent × Int) (h : p ∈ b.map Prod.fst) :
    (setBuf b p v).map Prod.fst = b.map Prod.fst := by
  induction b with
  | nil => simp at h
  | cons x rest ih =>
    obtain ⟨q, w⟩ := x
    by_cases hq : q = p
    · simp [setBuf, hq]
    · have : p ∈ rest.map Prod.fst := by
        rcases (by simpa using h) with h' | h'
        · exact absurd h'.symm hq
        · simpa using h'
      simp [setBuf, hq, ih this]

theorem length_setBuf (b : Buffer) (p : String) (v : FileChangeEvent × Int) :
    (setBuf b p v).length =
      if p ∈ b.map Prod.fst then b.length else b.length + 1 := by
  by_cases h : p ∈ b.map Prod.fst
  · rw [if_pos h]
    have hl := congrArg List.length (keys_setBuf_of_present b p v h)
    simpa using hl
  · rw [if_neg h]
    have hl := congrArg List.length (keys_setBuf_of_absent b p v h)
    simpa using hl

theorem keyfield_setBuf (b : Buffer) (e : FileChangeEvent) (t : Int)
    (hkey : ∀ x ∈ b, x.2.1.file_path = x.1) :
    ∀ x ∈ setBuf b e.file_path (e, t), x.2.1.file_path = x.1 := by
  induction b with
  | nil =>
    intro x hx
    have : x = (e.file_path, e, t) := by simpa [setBuf] using hx
    subst this
    rfl
  | cons y rest ih =>
    obtain ⟨q, w⟩ := y
    intro x hx
    by_cases hq : q = e.file_path
    · simp only [setBuf, beq_iff_eq, hq, if_true, List.mem_cons] at hx
      rcases hx with h' | h'
      · subst h'; rfl
      · exact hkey x (by simp [h'])
    · simp only [setBuf, beq_iff_eq, hq, if_false, List.mem_cons] at hx
      rcases hx with h' | h'
      · subst h'; exact hkey (q, w) (by simp)
      · exact ih (fun z hz => hkey z (by simp [hz])) x h'

theorem wf_setBuf (b : Buffer) (e : FileChangeEvent) (t : Int)
    (h : WFBuf b) : WFBuf (setBuf b e.file_path (e, t)) := by
  obtain ⟨hnd, hkey⟩ := h
  constructor
  · by_cases hp : e.file_path ∈ b.map Prod.fst
    · rw [keys_setBuf_of_present b _ _ hp]; exact hnd
    · rw [keys_setBuf_of_absent b _ _ hp]
      simpa [List.nodup_append, hp] using hnd
  · exact keyfield_setBuf b e t hkey

theorem lookup_applyAdds (m : Nat) (b : Buffer)
    (l : List (FileChangeEvent × Int)) (p : String) :
    lookupBuf (applyAdds m b l) p = (lastAddFor p l).or (lookupBuf b p) := by
  induction l generalizing b with
  | nil => simp [applyAdds, lastAddFor]
  | cons x xs ih =>
    have hfold : applyAdds m b (x :: xs) =
        applyAdds m (add_change m b x.1 x.2) xs := rfl
    rw [hfold, ih]
    have hlast : lastAddFor p (x :: xs) =
        (lastAddFor p xs).or ([x].find? (fun y => y.1.file_path == p)) := by
      simp [lastAddFor, List.find?_append]
    rw [hlast, Option.or_assoc]
    congr 1
    by_cases hp : x.1.file_path = p
    · subst hp
      simp [add_change, List.find?, lookup_setBuf_self b x.1.file_path x]
    · have hb : (x.1.file_path == p) = false := by simpa using hp
      simp [add_change, List.find?, hb,
        lookup_setBuf_ne b x.1.file_path p (x.1, x.2) (fun hc => hp hc.symm)]

theorem wf_applyAdds (m : Nat) (b : Buffer)
    (l : List (FileChangeEvent × Int)) (h : WFBuf b) :
    WFBuf (applyAdds m b l) := by
  induction l generalizing b with
  | nil => exact h
  | cons x xs ih => exact ih _ (wf_setBuf b x.1 x.2 h)

/-- Under key uniqueness, the entry found by a lookup is the only entry
the key filter keeps. -/
theorem filter_key_of_lookup (b : Buffer) (p : String) :
    ∀ v : FileChangeEvent × Int, (b.map Prod.fst).Nodup →
      lookupBuf b p = some v →
      b.filter (fun x => x.1 == p) = [(p, v)] := by
  induction b with
  | nil =>
    intro v _ h
    simp [lookupBuf] at h
  | cons x rest ih =>
    intro v hnd h
    obtain ⟨q, w⟩ := x
    by_cases hq : q = p
    · subst hq
      have hw : w = v := by simpa [lookupBuf, List.find?_cons] using h
      subst hw
      have hq' : q ∉ rest.map Prod.fst := by
        simp only [List.map_cons, List.nodup_cons] at hnd
        exact hnd.1
      have hrest : rest.filter (fun x => x.1 == q) = [] := by
        rw [List.filter_eq_nil_iff]
        intro a ha
        simp only [beq_iff_eq]
        intro hc
        exact hq' (by simpa [hc] using List.mem_map_of_mem Prod.fst ha)
      simp [List.filter_cons, hrest]
    · have h' : lookupBuf rest p = some v := by
        simpa [lookupBuf, List.find?_cons, hq] using h
      have hnd' : (rest.map Prod.fst).Nodup := by
        simp only [List.map_cons, List.nodup_cons] at hnd
        exact hnd.2
      simp [List.filter_cons, hq, ih v hnd' h']

/-- Under key uniqueness, filtering the buffer acts pointwise on a
lookup. -/
theorem lookup_filter (b : Buffer) (p : String)
    (q : String × FileChangeEvent × Int → Bool) :
    (b.map Prod.fst).Nodup →
      lookupBuf (b.filter q) p =
        (lookupBuf b p).bind (fun v => if q (p, v) then some v else none) := by
  induction b with
  | nil => intro; rfl
  | cons x rest ih =>
    intro hnd
    obtain ⟨k, w⟩ := x
    simp only [List.map_cons, List.nodup_cons] at hnd
    by_cases hk : k = p
    · subst hk
      have hlook : lookupBuf ((k, w) :: rest) k = some w := by
        simp [lookupBuf, List.find?_cons]
      rw [hlook]
      by_cases hq : q (k, w)
      · simp [List.filter_cons, hq, lookupBuf, List.find?_cons]
      · have hnone : lookupBuf (rest.filter q) k = none := by
          apply lookup_eq_none_of_not_key
          intro hc
          rcases List.mem_map.mp hc with ⟨y, hy, hyk⟩
          exact hnd.1 (by simpa [hyk] using
            List.mem_map_of_mem Prod.fst (List.mem_of_mem_filter hy))
        simp [List.filter_cons, hq, hnone]
    · have hstep : lookupBuf ((k, w) :: rest) p = lookupBuf rest p := by
        simp [lookupBuf, List.find?_cons, hk]
      rw [hstep]
      by_cases hq : q (k, w)
      · have hfil : List.filter q ((k, w) :: rest) =
            (k, w) :: List.filter q rest := by
          simp [List.filter_cons, hq]
        have hskip : lookupBuf ((k, w) :: rest.filter q) p =
            lookupBuf (rest.filter q) p := by
          simp [lookupBuf, List.find?_cons, hk]
        rw [hfil, hskip, ih hnd.2]
      · have hfil : List.filter q ((k, w) :: rest) = List.filter q rest := by
          simp [List.filter_cons, hq]
        rw [hfil, ih hnd.2]

/-- The ready list restricted to one path: under the invariant it is
exactly the path's single entry when that entry is old enough, and empty
otherwise. -/
theorem ready_filter_path (b : Buffer) (p : String)
    (v : FileChangeEvent × Int) (bt now : Int) (hwf : WFBuf b)
    (h : lookupBuf b p = some v) :
    (get_ready_changes bt now b).1.filter (fun e => e.file_path == p) =
      if isReady bt now (p, v) then [v.1] else [] := by
  obtain ⟨hnd, hkey⟩ := hwf
  have hfm : (get_ready_changes bt now b).1.filter
        (fun e => e.file_path == p) =
      ((b.filter (isReady bt now)).filter
        (fun x => x.2.1.file_path == p)).map (fun x => x.2.1) := by
    simp [get_ready_changes, List.filter_map, Function.comp]
  have hcong : (b.filter (isReady bt now)).filter
        (fun x => x.2.1.file_path == p) =
      (b.filter (isReady bt now)).filter (fun x => x.1 == p) := by
    apply List.filter_congr
    intro x hx
    rw [hkey x (List.mem_of_mem_filter hx)]
  have hcomm : (b.filter (isReady bt now)).filter (fun x => x.1 == p) =
      (b.filter (fun x => x.1 == p)).filter (isReady bt now) := by
    rw [List.filter_filter, List.filter_filter]
    apply List.filter_congr
    intro x _
    exact Bool.and_comm _ _
  rw [hfm, hcong, hcomm, filter_key_of_lookup b p v hnd h]
  by_cases hr : isReady bt now (p, v)
  · simp [List.filter_cons, hr]
  · have hrf : isReady bt now (p, v) = false := by
      simpa using hr
    simp [List.filter_cons, hrf]

/-- Claim C4: within a burst of adds the buffer keeps exactly one entry
for the path, holding the latest event; the path becomes ready exactly
when its last-touched time is at least the debounce window old, at which
point the single reconciled change carrying the most recent event kind
is delivered and the entry is removed; before that nothing for the path
is delivered. -/
theorem C4_debounce_latest_wins (m : Nat) (b : Buffer) (p : String)
    (l : List (FileChangeEvent × Int)) (v : FileChangeEvent × Int)
    (now : Int) (hwf : WFBuf b) (hlast : lastAddFor p l = some v) :
    lookupBuf (applyAdds m b l) p = some v ∧
    ((applyAdds m b l).filter (fun x => x.1 == p)).length ≤ 1 ∧
    (buffer_time_default ≤ now - v.2 →
      (get_ready_changes buffer_time_default now (applyAdds m b l)).1.filter
          (fun e => e.file_path == p) = [v.1] ∧
      lookupBuf
        (get_ready_changes buffer_time_default now (applyAdds m b l)).2 p =
        none) ∧
    (now - v.2 < buffer_time_default →
      ∀ e ∈ (get_ready_changes buffer_time_default now (applyAdds m b l)).1,
        e.file_path ≠ p) := by
  have hwf' := wf_applyAdds m b l hwf
  have hlook : lookupBuf (applyAdds m b l) p = some v := by
    rw [lookup_applyAdds, hlast, Option.or_some]
  refine ⟨hlook, ?_, ?_, ?_⟩
  · rw [filter_key_of_lookup _ p v hwf'.1 hlook]
    simp
  · intro hr
    have hrb : isReady buffer_time_default now (p, v) = true := by
      simpa [isReady] using hr
    constructor
    · rw [ready_filter_path _ p v _ _ hwf' hlook, if_pos hrb]
    · have hlf := lookup_filter (applyAdds m b l) p
        (fun x => !(isReady buffer_time_default now x)) hwf'.1
      simp only [get_ready_changes]
      rw [hlf, hlook]
      simp [hrb]
  · intro hr e he hep
    have hrb : isReady buffer_time_default now (p, v) = false := by
      simp only [isReady, decide_eq_false_iff_not]
      omega
    have h0 := ready_filter_path (applyAdds m b l) p v buffer_time_default
      now hwf' hlook
    rw [hrb] at h0
    simp only [Bool.false_eq_true, if_false] at h0
    have hmem : e ∈ (get_ready_changes buffer_time_default now
        (applyAdds m b l)).1.filter (fun x => x.file_path == p) := by
      rw [List.mem_filter]
      exact ⟨he, by simpa using hep⟩
    rw [h0] at hmem
    simp at hmem

/-- A named event for the concrete scenarios. -/
def sampleEvent (ty pathName : String) (ts : Int) : FileChangeEvent :=
  { event_type := ty, file_path := pathName, is_directory := false,
    old_path := none, timestamp := ts }

/-- The claim C4 scenario: a create and a modify for x.md one second
apart, polled 3 seconds after the last touch — one reconciled change is
delivered carrying the latest (modified) event, and the entry is gone. -/
theorem C4_witness :
    lookupBuf (applyAdds 1000 []
        [(sampleEvent ("created") ("x.md") 0, 0),
         (sampleEvent ("modified") ("x.md") 1, 1)]) "x.md" =
      some (sampleEvent ("modified") ("x.md") 1, 1) ∧
    (get_ready_changes buffer_time_default 3 (applyAdds 1000 []
        [(sampleEvent ("created") ("x.md") 0, 0),
         (sampleEvent ("modified") ("x.md") 1, 1)])).1.filter
        (fun e => e.file_path == "x.md") =
      [sampleEvent ("modified") ("x.md") 1] := by
  have h := C4_debounce_latest_wins 1000 [] "x.md"
    [(sampleEvent ("created") ("x.md") 0, 0),
     (sampleEvent ("modified") ("x.md") 1, 1)]
    (sampleEvent ("modified") ("x.md") 1, 1) 3
    (by constructor <;> decide) (by decide)
  exact ⟨h.1, (h.2.2.1 (by decide)).1⟩

/-- Claim C9: `add_change` is entirely independent of `max_size`; it
keeps the entry for its own path, removes no other entry, grows the
buffer only on a previously-unseen path, preserves the one-entry-per-path
invariant, and `flush_all` is the operation that empties the buffer. -/
theorem C9_buffer_never_evicts (m1 m2 : Nat) (b : Buffer)
    (e : FileChangeEvent) (t : Int) (p : String) :
    add_change m1 b e t = add_change m2 b e t ∧
    lookupBuf (add_change m1 b e t) e.file_path = some (e, t) ∧
    (p ≠ e.file_path → lookupBuf (add_change m1 b e t) p = lookupBuf b p) ∧
    (add_change m1 b e t).length =
      (if e.file_path ∈ b.map Prod.fst then b.length else b.length + 1) ∧
    (WFBuf b → WFBuf (add_change m1 b e t)) ∧
    (flush_all b).2 = [] := by
  exact ⟨rfl, lookup_setBuf_self b e.file_path (e, t),
    fun h => lookup_setBuf_ne b e.file_path p (e, t) h,
    length_setBuf b e.file_path (e, t),
    fun h => wf_setBuf b e t h, rfl⟩

/-- Concrete instantiation of claim C9: a buffer already holding
`max_size` entries still accepts a new path without evicting anything. -/
theorem C9_witness :
    lookupBuf (add_change 1 [("a.py", sampleEvent ("created") ("a.py") 0, 0)]
        (sampleEvent ("created") ("b.py") 1) 1) "b.py" =
      some (sampleEvent ("created") ("b.py") 1, 1) ∧
    lookupBuf (add_change 1 [("a.py", sampleEvent ("created") ("a.py") 0, 0)]
        (sampleEvent ("created") ("b.py") 1) 1) "a.py" =
      some (sampleEvent ("created") ("a.py") 0, 0) ∧
    (add_change 1 [("a.py", sampleEvent ("created") ("a.py") 0, 0)]
        (sampleEvent ("created") ("b.py") 1) 1).length = 2 := by
  have h := C9_buffer_never_evicts 1 2
    [("a.py", sampleEvent ("created") ("a.py") 0, 0)]
    (sampleEvent ("created") ("b.py") 1) 1 "a.py"
  refine ⟨h.2.1, ?_, ?_⟩
  · rw [h.2.2.1 (by decide)]
    decide
  · rw [h.2.2.2.1]
    decide

/-! ## FileMonitor moved-file pipeline (claim C7)

Paths are root-relative strings; `db` tells whether a record is
persisted under a relative path, `existsFn` is `Path.exists` on disk at
reconciliation time. -/

/-- `_handle_event` for a moved event: `file_path` is set from
`event.src_path` and — because watchdog move events also carry a
`dest_path` — `old_path` is set from `event.dest_path`. -/
def moved_change_event (src_path dest_path : String) : FileChangeEvent :=
  { event_type := "moved", file_path := src_path, is_directory := false,
    old_path := some dest_path, timestamp := 0 }

/-- `_process_changes` appends `(change.old_path, change.file_path)` to
`moved_files` for each moved change. -/
def moved_pair (c : FileChangeEvent) : Option String × String :=
  (c.old_path, c.file_path)

/-- What `_process_moved_files` does to the persistence port for one
pair. -/
inductive MovedAction where
  | update_with_analysis_of (record_path analyzed_path : String)
  | mark_deleted (record_path : String)
deriving DecidableEq, Repr

/-- The body of `_process_moved_files` for one `(old_path, new_path)`
pair: look up the record under `old_path`; when present, re-analyze at
`new_path` and update that record if `new_path` exists on disk,
otherwise mark the record deleted. -/
def process_moved_pair (db : String → Bool) (existsFn : String → Bool) :
    Option String × String → List MovedAction
  | (none, _) => []
  | (some old_path, new_path) =>
    if db old_path then
      if existsFn new_path then
        [MovedAction.update_with_analysis_of old_path new_path]
      else [MovedAction.mark_deleted old_path]
    else []

/-- The whole code path a moved OS event takes through the monitor. -/
def monitor_moved (db : String → Bool) (existsFn : String → Bool)
    (src_path dest_path : String) : List MovedAction :=
  process_moved_pair db existsFn (moved_pair (moved_change_event src_path dest_path))

/-- Claim C7's expected behaviour, written from its words: when the
destination is in scope, re-analyze at the destination and signal the
combined remove-old/upsert-new against the record found under the
source; when it is out of scope, signal only a tombstone for the
source. -/
def claimC7_moved (db : String → Bool) (in_scope : String → Bool)
    (src_path dest_path : String) : List MovedAction :=
  if in_scope dest_path then
    if db src_path then
      [MovedAction.update_with_analysis_of src_path dest_path]
    else []
  else
    if db src_path then [MovedAction.mark_deleted src_path] else []

/-- Claim C7 is right about the intent and wrong about the code: for a
move of a.py (persisted) to b.py (on disk, in scope) the claim demands
the a.py record be updated with the analysis of b.py, but `_handle_event`
stores the destination in the `old_path` slot, so `_process_moved_files`
looks the record up under the destination — finding nothing, it does
nothing, and the stale a.py record survives.  Worse, if some record does
sit under the destination path the code tests existence of the source
(gone after a real move) and marks that destination record deleted. -/
theorem C7_moved_pipeline_inverted :
    monitor_moved (fun q => q == "a.py") (fun q => q == "b.py")
        "a.py" "b.py" = [] ∧
    claimC7_moved (fun q => q == "a.py") (fun q => q == "b.py")
        "a.py" "b.py" =
      [MovedAction.update_with_analysis_of ("a.py") ("b.py")] ∧
    monitor_moved (fun q => q == "a.py" || q == "b.py")
        (fun q => q == "b.py") "a.py" "b.py" =
      [MovedAction.mark_deleted ("b.py")] ∧
    monitor_moved (fun q => q == "a.py") (fun q => q == "b.py")
        "a.py" "b.py" ≠
      claimC7_moved (fun q => q == "a.py") (fun q => q == "b.py")
        "a.py" "b.py" := by
  refine ⟨by decide, by decide, by decide, by decide⟩

/-! ## ResourceLimiter (src/src/scanner/performance.py, claim C8) -/

/-- The threshold settings `_check_limits` consults. -/
structure LimiterSettings where
  memory_limit_mb : Int
  emergency_memory_limit_mb : Int
  cpu_usage_limit : Int
  auto_pause_on_high_load : Bool
deriving DecidableEq, Repr

/-- The fields of a `ResourceUsage` sample that `_check_limits` reads. -/
structure UsageSample where
  cpu_percent : Int
  memory_mb : Int
deriving DecidableEq, Repr

/-- The limiter's latch state. -/
structure LimiterState where
  emergency_triggered : Bool
  paused : Bool
deriving DecidableEq, Repr

/-- `_trigger_emergency`: latch once; the callback fan-out (returned as
the list of emitted event types) fires only on the latching call. -/
def trigger_emergency (s : LimiterState) : LimiterState × List String :=
  if s.emergency_triggered then (s, [])
  else ({ s with emergency_triggered := true }, ["emergency"])

/-- `_trigger_pause`: latch and notify once until reset. -/
def trigger_pause (s : LimiterState) : LimiterState × List String :=
  if s.paused then (s, [])
  else ({ s with paused := true }, ["pause"])

/-- `_check_limits` on one sample: emergency memory ceiling first (with
early return), then the soft memory warning, then the CPU auto-pause. -/
def check_limits (cfg : LimiterSettings) (s : LimiterState)
    (u : UsageSample) : LimiterState × List String :=
  if cfg.emergency_memory_limit_mb < u.memory_mb then trigger_emergency s
  else
    let warns := if cfg.memory_limit_mb < u.memory_mb then ["warning"] else []
    if cfg.cpu_usage_limit < u.cpu_percent ∧ cfg.auto_pause_on_high_load then
      let r := trigger_pause s
      (r.1, warns ++ r.2)
    else (s, warns)

/-- Feed a sequence of samples through the limiter, collecting every
emitted event type in order. -/
def run_samples (cfg : LimiterSettings) (s : LimiterState) :
    List UsageSample → LimiterState × List String
  | [] => (s, [])
  | u :: us =>
    let r := check_limits cfg s u
    let r2 := run_samples cfg r.1 us
    (r2.1, r.2 ++ r2.2)

/-- Once latched, a sample can neither clear the emergency latch nor make
it notify again. -/
theorem check_limits_latched (cfg : LimiterSettings) (s : LimiterState)
    (u : UsageSample) (h : s.emergency_triggered = true) :
    (check_limits cfg s u).1.emergency_triggered = true ∧
    "emergency" ∉ (check_limits cfg s u).2 := by
  have hte : trigger_emergency s = (s, []) := by
    simp [trigger_emergency, h]
  have htp1 : (trigger_pause s).1.emergency_triggered = true := by
    unfold trigger_pause
    split
    · exact h
    · simpa using h
  have htp2 : "emergency" ∉ (trigger_pause s).2 := by
    unfold trigger_pause
    split <;> simp
  simp only [check_limits]
  split
  · rw [hte]
    exact ⟨h, by simp⟩
  · split
    · refine ⟨htp1, ?_⟩
      intro hmem
      rcases List.mem_append.mp hmem with hm | hm
      · revert hm
        split <;> simp
      · exact htp2 hm
    · refine ⟨h, ?_⟩
      intro hmem
      revert hmem
      split <;> simp

theorem run_samples_latched (cfg : LimiterSettings) (s : LimiterState)
    (us : List UsageSample) (h : s.emergency_triggered = true) :
    (run_samples cfg s us).1.emergency_triggered = true ∧
    (run_samples cfg s us).2.count "emergency" = 0 := by
  induction us generalizing s with
  | nil => simpa [run_samples] using h
  | cons u rest ih =>
    have h1 := check_limits_latched cfg s u h
    have h2 := ih (check_limits cfg s u).1 h1.1
    refine ⟨by simpa [run_samples] using h2.1, ?_⟩
    simp only [run_samples, List.count_append]
    rw [List.count_eq_zero.mpr h1.2, h2.2]

/-- Claim C8: from a fresh limiter, a run of samples that all breach the
emergency memory ceiling notifies exactly once — on the first breach —
and the latch stays set for every later sample. -/
theorem C8_emergency_fires_once (cfg : LimiterSettings) (s : LimiterState)
    (u : UsageSample) (us : List UsageSample)
    (h0 : s.emergency_triggered = false)
    (hb : cfg.emergency_memory_limit_mb < u.memory_mb) :
    (run_samples cfg s (u :: us)).2.count "emergency" = 1 ∧
    (run_samples cfg s (u :: us)).2.head? = some ("emergency") ∧
    (run_samples cfg s (u :: us)).1.emergency_triggered = true := by
  have hfirst : check_limits cfg s u =
      ({ s with emergency_triggered := true }, ["emergency"]) := by
    unfold check_limits trigger_emergency
    rw [if_pos hb, if_neg (by simp [h0])]
  have hlatched := run_samples_latched cfg
    { s with emergency_triggered := true } us (by simp)
  constructor
  · simp only [run_samples, hfirst, List.count_append]
    rw [hlatched.2]
    decide
  constructor
  · simp [run_samples, hfirst]
  · simpa [run_samples, hfirst] using hlatched.1

/-- Concrete instantiation of claim C8: three samples in a row over the
1024 MB emergency ceiling notify once and leave the latch set. -/
theorem C8_witness :
    (run_samples
      { memory_limit_mb := 512, emergency_memory_limit_mb := 1024,
        cpu_usage_limit := 80, auto_pause_on_high_load := true }
      { emergency_triggered := false, paused := false }
      [{ cpu_percent := 10, memory_mb := 2000 },
       { cpu_percent := 10, memory_mb := 2000 },
       { cpu_percent := 10, memory_mb := 2000 }]).2.count "emergency" = 1 ∧
    (run_samples
      { memory_limit_mb := 512, emergency_memory_limit_mb := 1024,
        cpu_usage_limit := 80, auto_pause_on_high_load := true }
      { emergency_triggered := false, paused := false }
      [{ cpu_percent := 10, memory_mb := 2000 },
       { cpu_percent := 10, memory_mb := 2000 },
       { cpu_percent := 10, memory_mb := 2000 }]).1.emergency_triggered =
      true := by
  have h := C8_emergency_fires_once
    { memory_limit_mb := 512, emergency_memory_limit_mb := 1024,
      cpu_usage_limit := 80, auto_pause_on_high_load := true }
    { emergency_triggered := false, paused := false }
    { cpu_percent := 10, memory_mb := 2000 }
    [{ cpu_percent := 10, memory_mb := 2000 },
     { cpu_percent := 10, memory_mb := 2000 }]
    (by decide) (by decide)
  exact ⟨h.1, h.2.2⟩

/-! ## ConcurrencyManager (src/src/scanner/performance.py, claim C1)

`sem_value` is the asyncio semaphore's internal counter; `held` is ghost
state counting the permits in-flight work has acquired and not yet
released — the source never stores it, but `_scale_down` estimates it as
`old_workers - current_value`.  `_scale_up` and `_scale_down` run
synchronously (no await inside), so each is one atomic step of the
cooperative scheduler. -/

structure ConcurrencyManager where
  current_workers : Nat
  max_workers : Nat
  sem_value : Nat
  held : Nat
deriving DecidableEq, Repr

/-- `acquire`: block unless the semaphore has a free permit (modelled as
`none` when the caller would suspend), else take one. -/
def cm_acquire (m : ConcurrencyManager) : Option ConcurrencyManager :=
  if m.sem_value = 0 then none
  else some { m with sem_value := m.sem_value - 1, held := m.held + 1 }

/-- `release`: give a permit back. -/
def cm_release (m : ConcurrencyManager) : ConcurrencyManager :=
  { m with sem_value := m.sem_value + 1, held := m.held - 1 }

/-- `_scale_up`: raise `current_workers` by one up to `max_workers` and
release that many extra permits into the semaphore. -/
def scale_up (m : ConcurrencyManager) : ConcurrencyManager :=
  let old_workers := m.current_workers
  let cw := min (old_workers + 1) m.max_workers
  if old_workers < cw then
    { m with
        current_workers := cw,
        sem_value := m.sem_value + (cw - old_workers) }
  else { m with current_workers := cw }

/-- `_scale_down`: lower `current_workers` by one but never below 1, and
swap in a fresh semaphore sized `max(0, new_workers - used_permits)`
where `used_permits = old_workers - current_value` (Python int
arithmetic, possibly negative). -/
def scale_down (m : ConcurrencyManager) : ConcurrencyManager :=
  let old_workers := m.current_workers
  let cw := max (old_workers - 1) 1
  if cw < old_workers then
    let used : Int := (old_workers : Int) - (m.sem_value : Int)
    let new_permits : Int := max 0 ((cw : Int) - used)
    { m with current_workers := cw, sem_value := new_permits.toNat }
  else { m with current_workers := cw }

/-- Claim C1: a scale-down adjustment revokes no permit held by in-flight
work (the outstanding count is untouched, and outstanding plus remaining
capacity never drops below the outstanding count at the adjustment);
it only shrinks the capacity offered to future acquisitions, and
`current_workers` never goes below 1. -/
theorem C1_scale_down_never_revokes (m : ConcurrencyManager) :
    (scale_down m).held = m.held ∧
    1 ≤ (scale_down m).current_workers ∧
    (scale_down m).sem_value ≤ m.sem_value ∧
    m.held ≤ (scale_down m).held + (scale_down m).sem_value := by
  simp only [scale_down]
  split
  · refine ⟨rfl, ?_, ?_, ?_⟩ <;> dsimp only <;> omega
  · refine ⟨rfl, ?_, ?_, ?_⟩ <;> dsimp only <;> omega

/-! ## ScannerPerformanceManager.acquire_worker (claim C2)

`paused` gives the limiter's pause latch as seen at each whole second of
the bounded poll; `emergency` is the emergency latch at entry.  The
source raises `RuntimeError` with two different messages; the outcome
type records the message so the two failures stay distinguishable. -/

inductive WorkerAcquisition where
  | raised (msg : String)
  | proceed_to_acquire
deriving DecidableEq, Repr

/-- The message of the admission-refused failure. -/
def emergency_stop_message : String :=
  "Emergency stop triggered - cannot acquire worker"

/-- The message of the still-paused timeout failure. -/
def paused_timeout_message : String :=
  "Scanner paused due to resource limits"

/-- The 60-iteration poll loop: check the pause latch, break when clear,
else sleep one second; the loop's else-clause runs only when all checks
saw the latch set. -/
def poll_unpause (paused : Nat → Bool) : Nat → Nat → Bool
  | _, 0 => false
  | t, fuel + 1 => if paused t then poll_unpause paused (t + 1) fuel else true

/-- `acquire_worker`: refuse at once under the emergency latch; under the
pause latch poll for up to 60 seconds and fail with the distinct
still-paused message when the bound elapses; otherwise fall through to
the admission primitive. -/
def acquire_worker (emergency : Bool) (paused : Nat → Bool) :
    WorkerAcquisition :=
  if emergency then WorkerAcquisition.raised emergency_stop_message
  else if paused 0 then
    if poll_unpause paused 0 60 then WorkerAcquisition.proceed_to_acquire
    else WorkerAcquisition.raised paused_timeout_message
  else WorkerAcquisition.proceed_to_acquire

theorem poll_unpause_iff (paused : Nat → Bool) :
    ∀ (fuel t : Nat), poll_unpause paused t fuel = true ↔
      ∃ k, k < fuel ∧ paused (t + k) = false := by
  intro fuel
  induction fuel with
  | zero => intro t; simp [poll_unpause]
  | succ n ih =>
    intro t
    unfold poll_unpause
    by_cases h : paused t
    · rw [if_pos h, ih (t + 1)]
      constructor
      · rintro ⟨k, hk, hp⟩
        exact ⟨k + 1, by omega, by
          have : t + 1 + k = t + (k + 1) := by omega
          rw [← this]; exact hp⟩
      · rintro ⟨k, hk, hp⟩
        cases k with
        | zero => rw [Nat.add_zero] at hp; rw [hp] at h; cases h
        | succ k' =>
          exact ⟨k', by omega, by
            have : t + 1 + k' = t + (k' + 1) := by omega
            rw [this]; exact hp⟩
    · have hb : paused t = false := by simpa using h
      rw [if_neg h]
      exact ⟨fun _ => ⟨0, by omega, by simpa using hb⟩, fun _ => rfl⟩

/-- Claim C2: the emergency latch refuses admission immediately with the
admission-refused message; a pause that survives all 60 one-second polls
fails with the distinct still-paused message; with no latch set — or a
pause that clears within the bound — the call falls through to block on
the admission primitive; the two failure conditions are distinguishable
by the caller. -/
theorem C2_acquire_worker_contract (paused : Nat → Bool) :
    acquire_worker true paused =
      WorkerAcquisition.raised emergency_stop_message ∧
    ((∀ k, k < 60 → paused k = true) →
      acquire_worker false paused =
        WorkerAcquisition.raised paused_timeout_message) ∧
    (paused 0 = false →
      acquire_worker false paused = WorkerAcquisition.proceed_to_acquire) ∧
    ((∃ k, k < 60 ∧ paused k = false) →
      acquire_worker false paused = WorkerAcquisition.proceed_to_acquire) ∧
    emergency_stop_message ≠ paused_timeout_message := by
  refine ⟨rfl, ?_, ?_, ?_, by decide⟩
  · intro hall
    have hp0 : paused 0 = true := hall 0 (by omega)
    have hpoll : poll_unpause paused 0 60 = false := by
      rw [← Bool.not_eq_true, poll_unpause_iff]
      rintro ⟨k, hk, hp⟩
      rw [Nat.zero_add] at hp
      rw [hall k hk] at hp
      cases hp
    simp [acquire_worker, hp0, hpoll]
  · intro h0
    simp [acquire_worker, h0]
  · rintro ⟨k, hk, hp⟩
    by_cases h0 : paused 0
    · have hpoll : poll_unpause paused 0 60 = true := by
        rw [poll_unpause_iff]
        exact ⟨k, hk, by simpa using hp⟩
      simp [acquire_worker, h0, hpoll]
    · simp [acquire_worker, h0]

/-- Concrete instantiation of claim C2: under a permanent pause the call
times out with the still-paused message, which differs from the
admission-refused message raised under the emergency latch. -/
theorem C2_witness :
    acquire_worker false (fun _ => true) =
      WorkerAcquisition.raised paused_timeout_message ∧
    acquire_worker true (fun _ => true) =
      WorkerAcquisition.raised emergency_stop_message ∧
    acquire_worker false (fun _ => false) =
      WorkerAcquisition.proceed_to_acquire ∧
    emergency_stop_message ≠ paused_timeout_message := by
  have h := C2_acquire_worker_contract (fun _ => true)
  have h' := C2_acquire_worker_contract (fun _ => false)
  exact ⟨h.2.1 (fun k _ => rfl), h.1, h'.2.2.1 rfl, h.2.2.2.2⟩
